import Mathlib

/-!
Shallow embedding of `src/lib/plugin/kpluginmetadata.cpp` (KPluginMetaData from
kcoreaddons): the JSON data model, the Qt value-coercion helpers the file relies
on, the KPluginMetaData record with its constructors and accessors, and the
`findPlugins` discovery routine.  External effects (the plugin loader, the file
system, the MIME database) are passed in as explicit environments.
-/

set_option autoImplicit false

/-- A JSON value (`QJsonValue`), with numbers restricted to integers (the only
numeric values the claims exercise). `QJsonValue::Undefined` is represented as
`none` at the `Option JVal` level where Qt accessors can produce it. -/
inductive JVal where
  | null
  | bool (b : Bool)
  | num (n : Int)
  | str (s : String)
  | arr (xs : List JVal)
  | obj (fields : List (String × JVal))

/-- A JSON object (`QJsonObject`) as an association list keyed by `String`. -/
abbrev JObj := List (String × JVal)

/-- `QJsonObject::value` / `operator[]`: first binding of the key, or
Undefined (`none`) when the key is absent. -/
def jLookup (o : JObj) (key : String) : Option JVal :=
  match o with
  | [] => none
  | (k, v) :: rest => if k = key then some v else jLookup rest key

/-- `QJsonValue::toObject()`: the object, or an empty object for any other
value (including Undefined). -/
def qToObject : Option JVal → JObj
  | some (JVal.obj o) => o
  | _ => []

/-- `QJsonValue::isBool()`. -/
def qIsBool : Option JVal → Bool
  | some (JVal.bool _) => true
  | _ => false

/-- `QJsonValue::toBool()` (default `false`). -/
def qToBool : Option JVal → Bool
  | some (JVal.bool b) => b
  | _ => false

/-- `QJsonValue::isString()`. -/
def qIsString : Option JVal → Bool
  | some (JVal.str _) => true
  | _ => false

/-- `QJsonValue::toString(defaultValue)`. -/
def qToStringD : Option JVal → String → String
  | some (JVal.str s), _ => s
  | _, d => d

/-- `QJsonValue::isDouble()`. -/
def qIsDouble : Option JVal → Bool
  | some (JVal.num _) => true
  | _ => false

/-- `QJsonValue::toInt()` (default `0`). -/
def qToInt : Option JVal → Int
  | some (JVal.num n) => n
  | _ => 0

/-- `QJsonValue::isArray()`. -/
def qIsArray : Option JVal → Bool
  | some (JVal.arr _) => true
  | _ => false

/-- `QJsonValue::toVariant().toString()`: strings pass through, booleans render
as `"true"` / `"false"`, numbers render decimally, everything else is empty. -/
def qvariantToString : JVal → String
  | JVal.null => ""
  | JVal.bool b => if b then "true" else "false"
  | JVal.num n => toString n
  | JVal.str s => s
  | JVal.arr _ => ""
  | JVal.obj _ => ""

/-- `QJsonValue::toVariant().toStringList()`: a string becomes a singleton
list, an array converts element-wise, anything else yields the empty list. -/
def qvariantToStringList : Option JVal → List String
  | some (JVal.str s) => [s]
  | some (JVal.arr xs) => xs.map qvariantToString
  | _ => []

/-- `QString::toInt(&ok)`: optional sign, decimal digits, 32-bit range;
`none` models `ok == false`. Surrounding whitespace is ignored. -/
def qstringToInt (s : String) : Option Int :=
  let t := ((s.data.dropWhile Char.isWhitespace).reverse.dropWhile Char.isWhitespace).reverse
  let neg := match t with | '-' :: _ => true | _ => false
  let digits := match t with
    | '-' :: rest => rest
    | '+' :: rest => rest
    | l => l
  if digits.isEmpty then none
  else if digits.all Char.isDigit then
    let n : Nat := digits.foldl (fun a c => a * 10 + (c.toNat - 48)) 0
    if neg then (if n ≤ 2147483648 then some (-(n : Int)) else none)
    else (if n ≤ 2147483647 then some (n : Int) else none)
  else none

/-- Split a character list at every occurrence of `sep` (the pieces keep
their order; an empty input yields one empty piece, as `QString::split`
and `String.splitOn` do). -/
def listSplitOn (sep : Char) : List Char → List (List Char)
  | [] => [[]]
  | c :: cs =>
    let r := listSplitOn sep cs
    if c = sep then [] :: r
    else
      match r with
      | [] => [[c]]
      | h :: t => (c :: h) :: t

/-- Re-join pieces with a `.` separator. -/
def joinDot : List (List Char) → List Char
  | [] => []
  | [x] => x
  | x :: xs => x ++ '.' :: joinDot xs

/-- `QFileInfo::fileName()`: the component after the last `/`. -/
def qtFileName (path : String) : List Char :=
  (listSplitOn '/' path.data).getLastD []

/-- `QFileInfo::completeBaseName()`: the file name up to (but not including)
the last `.`, or the whole file name when it has no dot. -/
def completeBaseName (path : String) : String :=
  let f := qtFileName path
  let parts := listSplitOn '.' f
  if parts.length ≤ 1 then String.mk f else String.mk (joinDot parts.dropLast)

/-- `QString::startsWith(QLatin1Char('/'))`: does the path begin with `/`? -/
def startsWithSlash (s : String) : Bool :=
  match s.data with
  | c :: _ => c = '/'
  | [] => false

/-- `KPluginMetaData::KPluginMetaDataOption`. -/
inductive KPluginMetaDataOption where
  | DoNotAllowEmptyMetaData
  | AllowEmptyMetaData
deriving DecidableEq

/-- `QStaticPlugin`, reduced to the JSON object its `metaData()` call returns
(holding the `"MetaData"` and `"X-KDE-FileName"` keys). -/
structure QStaticPlugin where
  pluginMetaData : JObj

/-- The state of `KPluginMetaDataPrivate`: requested file name, the
empty-metadata option, the optional static plugin, the metadata JSON object
and the resolved file name. -/
structure KPluginMetaData where
  m_requestedFileName : String
  m_option : KPluginMetaDataOption
  staticPlugin : Option QStaticPlugin
  m_metaData : JObj
  m_fileName : String

namespace KPluginMetaData

/-- The `KPluginMetaData(const QJsonObject &, const QString &)` constructor:
stores the JSON object and file name verbatim, leaving the defaults
(`DoNotAllowEmptyMetaData`, no static plugin) in place. -/
def ofJsonObject (metaData : JObj) (fileName : String) : KPluginMetaData :=
  { m_requestedFileName := ""
  , m_option := KPluginMetaDataOption.DoNotAllowEmptyMetaData
  , staticPlugin := none
  , m_metaData := metaData
  , m_fileName := fileName }

/-- `KPluginMetaData::rawData()`. -/
def rawData (m : KPluginMetaData) : JObj :=
  m.m_metaData

/-- `KPluginMetaData::fileName()`. -/
def fileName (m : KPluginMetaData) : String :=
  m.m_fileName

/-- `KPluginMetaData::rootObject()`: the `"KPlugin"` sub-object. -/
def rootObject (m : KPluginMetaData) : JObj :=
  qToObject (jLookup m.m_metaData "KPlugin")

/-- `KPluginMetaData::pluginId()`: the `"Id"` entry of the root object when it
is a non-empty string, else the complete base name of the file path, else
empty when there is no file path. -/
def pluginId (m : KPluginMetaData) : String :=
  match jLookup (rootObject m) "Id" with
  | some v =>
    let id := qToStringD (some v) ""
    if id ≠ "" then id
    else if m.m_fileName = "" then "" else completeBaseName m.m_fileName
  | none => if m.m_fileName = "" then "" else completeBaseName m.m_fileName

/-- `KPluginMetaData::isValid()`. -/
def isValid (m : KPluginMetaData) : Bool :=
  !(pluginId m).isEmpty
    && (!m.m_metaData.isEmpty || m.m_option == KPluginMetaDataOption.AllowEmptyMetaData)

/-- `KPluginMetaData::mimeTypes()`. -/
def mimeTypes (m : KPluginMetaData) : List String :=
  qvariantToStringList (jLookup (rootObject m) "MimeTypes")

/-- `KPluginMetaData::isEnabledByDefault()`. -/
def isEnabledByDefault (m : KPluginMetaData) : Bool :=
  let val := jLookup (rootObject m) "EnabledByDefault"
  if qIsBool val then qToBool val
  else if qIsString val then qToStringD val "" == "true"
  else false

/-- The string overload `KPluginMetaData::value(key, defaultValue)`: reads the
key from the top-level metadata object. -/
def valueString (m : KPluginMetaData) (key : String) (defaultValue : String) : String :=
  let v := jLookup m.m_metaData key
  if qIsString v then qToStringD v defaultValue
  else if qIsArray v then String.intercalate "," (qvariantToStringList v)
  else if qIsBool v then (if qToBool v then "true" else "false")
  else defaultValue

/-- The bool overload `KPluginMetaData::value(key, defaultValue)`. -/
def valueBool (m : KPluginMetaData) (key : String) (defaultValue : Bool) : Bool :=
  let v := jLookup m.m_metaData key
  if qIsBool v then qToBool v
  else if qIsString v then qToStringD v "" == "true"
  else defaultValue

/-- The int overload `KPluginMetaData::value(key, defaultValue)`. -/
def valueInt (m : KPluginMetaData) (key : String) (defaultValue : Int) : Int :=
  let v := jLookup m.m_metaData key
  if qIsDouble v then qToInt v
  else if qIsString v then
    match qstringToInt (qToStringD v "") with
    | some n => n
    | none => defaultValue
  else defaultValue

/-- The string-list overload `KPluginMetaData::value(key, defaultValue)`. -/
def valueStringList (m : KPluginMetaData) (key : String) (defaultValue : List String) :
    List String :=
  match jLookup m.m_metaData key with
  | none => defaultValue
  | some JVal.null => defaultValue
  | some (JVal.obj _) => defaultValue
  | some (JVal.arr xs) => xs.map qvariantToString
  | some w =>
    let asString := match w with | JVal.str s => s | _ => qvariantToString w
    if asString = "" then defaultValue else [asString]

end KPluginMetaData

/-- The outcome of `QFile::open` + `QJsonDocument::fromJson` on one file:
the open call fails, or it succeeds and parsing yields either a parse error
(`readData none`, i.e. a null document whose `object()` is empty) or a parsed
top-level JSON value. -/
inductive QFileJsonResult where
  | openFail
  | readData (doc : Option JVal)

namespace KPluginMetaData

/-- `KPluginMetaData::fromJsonFile` (via `loadFromJsonFile`): on open failure
it returns early with a fresh default state; otherwise the metadata is the
document's `object()` (empty on parse error or non-object document) and the
file name is the absolute path of the requested file.  `fs` models the file
system and `absoluteFilePath` models `QFileInfo::absoluteFilePath`. -/
def fromJsonFile (fs : String → QFileJsonResult) (absoluteFilePath : String → String)
    (file : String) : KPluginMetaData :=
  match fs file with
  | QFileJsonResult.openFail => ofJsonObject [] ""
  | QFileJsonResult.readData doc =>
    { m_requestedFileName := ""
    , m_option := KPluginMetaDataOption.DoNotAllowEmptyMetaData
    , staticPlugin := none
    , m_metaData := qToObject doc
    , m_fileName := absoluteFilePath file }

/-- `KPluginMetaDataPrivate::loadStaticPlugin` as used inside `findPlugins`:
the metadata is the plugin's `"MetaData"` object, the file name is the first
entry of the `"X-KDE-FileName"` hint (empty when the hint is absent). -/
def loadStaticPlugin (p : QStaticPlugin) (opt : KPluginMetaDataOption) : KPluginMetaData :=
  { m_requestedFileName := ""
  , m_option := opt
  , staticPlugin := some p
  , m_metaData := qToObject (jLookup p.pluginMetaData "MetaData")
  , m_fileName := (qvariantToStringList (jLookup p.pluginMetaData "X-KDE-FileName")).headD "" }

end KPluginMetaData

/-- The file-system and plugin-loader environment `findPlugins` runs in, for
one queried directory: `pluginFiles` is the ordered list of absolute candidate
file paths `forEachPlugin` yields for that directory; `loaderFileName` and
`loaderMetaData` give `QPluginLoader::fileName()` / `metaData()` after
`setFileName` on a path (an empty file name means the loader found nothing);
`absoluteFilePath` models `QFileInfo::absoluteFilePath`; `appDirPath` is
`QCoreApplication::applicationDirPath()`. -/
structure DiskEnv where
  pluginFiles : List String
  loaderFileName : String → String
  loaderMetaData : String → JObj
  absoluteFilePath : String → String
  appDirPath : String

/-- `KPluginMetaDataPrivate::getPluginLoaderForPath`: the path finally handed
to `QPluginLoader::setFileName` — an absolute path verbatim; a relative path
is resolved against the application directory, falling back to the literal
relative path when that resolution yields an empty loader file name. -/
def chosenLoaderPath (env : DiskEnv) (path : String) : String :=
  if startsWithSlash path then path
  else
    let resolved := env.appDirPath ++ "/" ++ path
    if env.loaderFileName resolved = "" then path else resolved

namespace KPluginMetaData

/-- The `KPluginMetaData(const QString &, KPluginMetaDataOption)` constructor:
resolve the loader path, take the loader's metadata, and keep its `"MetaData"`
object when the loader metadata is non-empty. -/
def ofPluginFile (env : DiskEnv) (pluginFile : String) (opt : KPluginMetaDataOption) :
    KPluginMetaData :=
  let chosen := chosenLoaderPath env pluginFile
  let qtMetaData := env.loaderMetaData chosen
  { m_requestedFileName := pluginFile
  , m_option := opt
  , staticPlugin := none
  , m_metaData := if qtMetaData.isEmpty then [] else qToObject (jLookup qtMetaData "MetaData")
  , m_fileName := env.absoluteFilePath (env.loaderFileName chosen) }

end KPluginMetaData

/-- The optional `std::function` predicate of `findPlugins`: a null function
lets everything through. -/
def passesFilter (filter : Option (KPluginMetaData → Bool)) (m : KPluginMetaData) : Bool :=
  match filter with
  | none => true
  | some f => f m

/-- The static-plugin phase of `findPlugins`: build metadata for each static
plugin of the directory and keep the valid ones that pass the filter, in
enumeration order.  No identifier bookkeeping happens in this phase. -/
def findPluginsStatic (filter : Option (KPluginMetaData → Bool)) (opt : KPluginMetaDataOption) :
    List QStaticPlugin → List KPluginMetaData
  | [] => []
  | p :: ps =>
    let metaData := KPluginMetaData.loadStaticPlugin p opt
    if metaData.isValid && passesFilter filter metaData
    then metaData :: findPluginsStatic filter opt ps
    else findPluginsStatic filter opt ps

/-- The disk-scan phase of `findPlugins`, over the remaining candidate files,
threading `addedPluginIds` (the `QSet<QString>` of identifiers already added
during this phase): skip invalid metadata, skip identifiers already seen,
apply the filter, and record the identifier only when the entry is kept. -/
def findPluginsDiskGo (env : DiskEnv) (filter : Option (KPluginMetaData → Bool))
    (opt : KPluginMetaDataOption) (addedPluginIds : List String) :
    List String → List KPluginMetaData
  | [] => []
  | f :: fs =>
    let metadata := KPluginMetaData.ofPluginFile env f opt
    if !metadata.isValid then findPluginsDiskGo env filter opt addedPluginIds fs
    else if addedPluginIds.contains metadata.pluginId then
      findPluginsDiskGo env filter opt addedPluginIds fs
    else if !passesFilter filter metadata then findPluginsDiskGo env filter opt addedPluginIds fs
    else metadata :: findPluginsDiskGo env filter opt (metadata.pluginId :: addedPluginIds) fs

/-- The full disk-scan phase, starting from an empty identifier set. -/
def findPluginsDisk (env : DiskEnv) (filter : Option (KPluginMetaData → Bool))
    (opt : KPluginMetaDataOption) : List KPluginMetaData :=
  findPluginsDiskGo env filter opt [] env.pluginFiles

/-- `KPluginMetaData::findPlugins(directory, filter, option)`: the static
plugins registered for the directory (in order), followed by the deduplicated
disk-discovered plugins.  `statics` is what `KStaticPluginHelpers::staticPlugins`
returns for the queried directory and `env` describes its resolved search
paths on disk. -/
def findPlugins (statics : List QStaticPlugin) (env : DiskEnv)
    (filter : Option (KPluginMetaData → Bool)) (opt : KPluginMetaDataOption) :
    List KPluginMetaData :=
  findPluginsStatic filter opt statics ++ findPluginsDisk env filter opt

/-- Modelled from the spec: `KAboutPerson` lives in kaboutdata.cpp, which is
not under src/; the spec (§3) describes a person record as "a small value:
name, email, task description". -/
structure KAboutPerson where
  name : String
  emailAddress : String
  task : String
deriving DecidableEq

/-- Modelled from the spec: `KAboutPerson::fromJSON` is also part of the
missing kaboutdata.cpp; per the spec's person-record description it reads the
name, email and task fields of the JSON object (the name possibly after the
locale-aware lookup, modelled here in the default locale as the bare key). -/
def KAboutPerson.fromJSON (obj : JObj) : KAboutPerson :=
  { name := qToStringD (jLookup obj "Name") ""
  , emailAddress := qToStringD (jLookup obj "Email") ""
  , task := qToStringD (jLookup obj "Task") "" }

/-- `addPersonFromJson`: append the person parsed from `obj` to `out` unless
its name is empty (which is only logged). -/
def addPersonFromJson (obj : JObj) (out : List KAboutPerson) : List KAboutPerson :=
  let person := KAboutPerson.fromJSON obj
  if person.name.isEmpty then out else out ++ [person]

/-- The loop body of `aboutPersonFromJSON`'s array case: fold over the array,
adding each element that is an object and skipping the rest. -/
def addPersonsFromArray (xs : List JVal) (acc : List KAboutPerson) : List KAboutPerson :=
  xs.foldl
    (fun a v => match v with
      | JVal.obj o => addPersonFromJson o a
      | _ => a)
    acc

/-- `aboutPersonFromJSON`: a single object is a single author, an array is
folded element-wise, any other value yields the empty list. -/
def aboutPersonFromJSON (people : Option JVal) : List KAboutPerson :=
  match people with
  | some (JVal.obj o) => addPersonFromJson o []
  | some (JVal.arr xs) => addPersonsFromArray xs []
  | _ => []

namespace KPluginMetaData

/-- `KPluginMetaData::authors()`. -/
def authors (m : KPluginMetaData) : List KAboutPerson :=
  aboutPersonFromJSON (jLookup (rootObject m) "Authors")

/-- `KPluginMetaData::translators()`. -/
def translators (m : KPluginMetaData) : List KAboutPerson :=
  aboutPersonFromJSON (jLookup (rootObject m) "Translators")

/-- `KPluginMetaData::otherContributors()`. -/
def otherContributors (m : KPluginMetaData) : List KAboutPerson :=
  aboutPersonFromJSON (jLookup (rootObject m) "OtherContributors")

end KPluginMetaData

/-- `QMimeDatabase`, reduced to the two queries `supportsMimeType` makes of it:
validity of a MIME name and the inheritance test `QMimeType::inherits`. -/
structure QMimeDatabase where
  isValidMime : String → Bool
  inherits : String → String → Bool

namespace KPluginMetaData

/-- `KPluginMetaData::supportsMimeType(mimeType)`: exact membership in the
declared list first; otherwise consult the database `db` for inheritance. -/
def supportsMimeType (db : QMimeDatabase) (m : KPluginMetaData) (mimeType : String) : Bool :=
  let mimes := mimeTypes m
  if mimes.contains mimeType then true
  else if !(db.isValidMime mimeType) then false
  else mimes.any (fun supported => db.inherits mimeType supported)

end KPluginMetaData

/-! ## Theorems -/

open KPluginMetaData

/-- A metadata state with an empty JSON object and the default
`DoNotAllowEmptyMetaData` option is never valid, whatever its file name. -/
theorem isValid_of_empty_meta_strict (m : KPluginMetaData) (h1 : m.m_metaData = [])
    (h2 : m.m_option = KPluginMetaDataOption.DoNotAllowEmptyMetaData) : m.isValid = false := by
  have hb : (KPluginMetaDataOption.DoNotAllowEmptyMetaData
      == KPluginMetaDataOption.AllowEmptyMetaData) = false := rfl
  simp [KPluginMetaData.isValid, h1, h2, hb]

/-- A string has `isEmpty = false` exactly when it is not the empty string. -/
theorem str_isEmpty_eq_false (s : String) : s.isEmpty = false ↔ s ≠ "" := by
  cases h : s.isEmpty <;> simp_all [← String.isEmpty_iff, h]

/-- C2: `isValid()` holds iff the plugin id is non-empty and either the raw
JSON object is non-empty or the `AllowEmptyMetaData` option was set. -/
theorem isValid_iff_pluginId_and_nonempty (m : KPluginMetaData) :
    m.isValid = true ↔
      (m.pluginId ≠ "" ∧
        (m.rawData ≠ [] ∨ m.m_option = KPluginMetaDataOption.AllowEmptyMetaData)) := by
  simp only [KPluginMetaData.isValid, KPluginMetaData.rawData, Bool.and_eq_true,
    Bool.or_eq_true, Bool.not_eq_true', List.isEmpty_eq_false, str_isEmpty_eq_false,
    beq_iff_eq]

/-- C8: the `(QJsonObject, QString)` constructor stores both arguments
verbatim: `rawData()` returns exactly the JSON object and `fileName()` exactly
the path. -/
theorem ofJsonObject_roundtrip (j : JObj) (p : String) :
    (ofJsonObject j p).rawData = j ∧ (ofJsonObject j p).fileName = p :=
  ⟨rfl, rfl⟩

/-- C10: `isEnabledByDefault()` returns a JSON boolean directly, compares a
JSON string against `"true"`, and is false in every other case (key absent or
value of any other type). -/
theorem isEnabledByDefault_spec (m : KPluginMetaData) :
    (∀ b, jLookup m.rootObject "EnabledByDefault" = some (JVal.bool b) →
      m.isEnabledByDefault = b) ∧
    (∀ s, jLookup m.rootObject "EnabledByDefault" = some (JVal.str s) →
      (m.isEnabledByDefault = true ↔ s = "true")) ∧
    (jLookup m.rootObject "EnabledByDefault" = none → m.isEnabledByDefault = false) ∧
    (∀ v, jLookup m.rootObject "EnabledByDefault" = some v →
      qIsBool (some v) = false → qIsString (some v) = false → m.isEnabledByDefault = false) := by
  refine ⟨fun b h => ?_, fun s h => ?_, fun h => ?_, fun v h hb hs => ?_⟩
  · simp [KPluginMetaData.isEnabledByDefault, h, qIsBool, qToBool]
  · simp [KPluginMetaData.isEnabledByDefault, h, qIsBool, qIsString, qToStringD]
  · simp [KPluginMetaData.isEnabledByDefault, h, qIsBool, qIsString]
  · simp [KPluginMetaData.isEnabledByDefault, h, hb, hs]

/-- Witness for C10 at concrete inputs: the string `"true"` enables, the
string `"false"` does not, and an absent key does not. -/
theorem isEnabledByDefault_spec_witness :
    (ofJsonObject [("KPlugin", JVal.obj [("EnabledByDefault", JVal.str "true")])] "").isEnabledByDefault
        = true
      ∧ (ofJsonObject [] "").isEnabledByDefault = false :=
  ⟨((isEnabledByDefault_spec
        (ofJsonObject [("KPlugin", JVal.obj [("EnabledByDefault", JVal.str "true")])] "")).2.1
      "true" rfl).mpr rfl,
    (isEnabledByDefault_spec (ofJsonObject [] "")).2.2.1 rfl⟩

/-- C6: the int overload of `value(key, default)` returns the default when the
key is absent from the metadata object, the number itself for a JSON number,
the parsed value for a string that parses as an integer, and the default for a
string that does not. -/
theorem valueInt_spec (m : KPluginMetaData) (key : String) (d : Int) :
    (jLookup m.m_metaData key = none → m.valueInt key d = d) ∧
    (∀ n, jLookup m.m_metaData key = some (JVal.num n) → m.valueInt key d = n) ∧
    (∀ s n, jLookup m.m_metaData key = some (JVal.str s) → qstringToInt s = some n →
      m.valueInt key d = n) ∧
    (∀ s, jLookup m.m_metaData key = some (JVal.str s) → qstringToInt s = none →
      m.valueInt key d = d) := by
  refine ⟨fun h => ?_, fun n h => ?_, fun s n h hp => ?_, fun s h hp => ?_⟩
  · simp [KPluginMetaData.valueInt, h, qIsDouble, qIsString]
  · simp [KPluginMetaData.valueInt, h, qIsDouble, qToInt]
  · simp [KPluginMetaData.valueInt, h, qIsDouble, qIsString, qToStringD, hp]
  · simp [KPluginMetaData.valueInt, h, qIsDouble, qIsString, qToStringD, hp]

/-- Witness for C6: absent key yields the default `5`; the numeral string
`"42"` yields `42`. -/
theorem valueInt_spec_witness :
    (ofJsonObject [] "").valueInt "K" 5 = 5
      ∧ (ofJsonObject [("K", JVal.str "42")] "").valueInt "K" 5 = 42 :=
  ⟨(valueInt_spec (ofJsonObject [] "") "K" 5).1 rfl,
    (valueInt_spec (ofJsonObject [("K", JVal.str "42")] "") "K" 5).2.2.1 "42" 42 rfl (by decide)⟩

/-- C7: `fromJsonFile` is a total function (it always returns a constructed
instance — there is no error channel), and on open failure or parse failure
the instance carries empty raw metadata and is invalid. -/
theorem fromJsonFile_total_degrades (fs : String → QFileJsonResult)
    (absoluteFilePath : String → String) (file : String)
    (h : fs file = QFileJsonResult.openFail ∨ fs file = QFileJsonResult.readData none) :
    (fromJsonFile fs absoluteFilePath file).rawData = []
      ∧ (fromJsonFile fs absoluteFilePath file).isValid = false := by
  cases h with
  | inl h =>
    refine ⟨?_, ?_⟩ <;> simp only [KPluginMetaData.fromJsonFile, h]
    · rfl
    · exact isValid_of_empty_meta_strict _ rfl rfl
  | inr h =>
    refine ⟨?_, ?_⟩ <;> simp only [KPluginMetaData.fromJsonFile, h]
    · rfl
    · exact isValid_of_empty_meta_strict _ rfl rfl

/-- Witness for C7: a file system on which every open fails. -/
theorem fromJsonFile_total_degrades_witness :
    (fromJsonFile (fun _ => QFileJsonResult.openFail) (fun s => s) "/x.json").rawData = []
      ∧ (fromJsonFile (fun _ => QFileJsonResult.openFail) (fun s => s) "/x.json").isValid
          = false :=
  fromJsonFile_total_degrades _ _ _ (Or.inl rfl)

/-- The string that `pluginId()` extracts from the `"Id"` entry of the root
object: the entry's string value, or the empty string when the entry is
absent, non-string, or empty. -/
def idFieldString (m : KPluginMetaData) : String :=
  qToStringD (jLookup m.rootObject "Id") ""

/-- Counterexample to C3: a descriptor whose `"KPlugin"` object carries an
`"Id"` field holding the empty string, with an associated file path. -/
def mdEmptyId : KPluginMetaData :=
  ofJsonObject [("KPlugin", JVal.obj [("Id", JVal.str "")])] "/a/b/myplugin.so"

/-- C3 fails as stated: here the `"Id"` field is present (with value `""`),
yet `pluginId()` does not return that field's value — it falls back to the
file's base name `"myplugin"`. -/
theorem pluginId_present_id_counterexample :
    jLookup mdEmptyId.rootObject "Id" = some (JVal.str "")
      ∧ mdEmptyId.pluginId = "myplugin"
      ∧ ("myplugin" : String) ≠ "" :=
  ⟨rfl, by decide, by decide⟩

/-- C3 amended: `pluginId()` returns the `"Id"` entry's string value when that
entry is present with a non-empty string value (regardless of file path);
otherwise the base name of the file path without its final extension;
otherwise, with no file path either, the empty string. -/
theorem pluginId_resolution_order (m : KPluginMetaData) :
    (idFieldString m ≠ "" → m.pluginId = idFieldString m) ∧
    (idFieldString m = "" → m.m_fileName ≠ "" → m.pluginId = completeBaseName m.m_fileName) ∧
    (idFieldString m = "" → m.m_fileName = "" → m.pluginId = "") := by
  refine ⟨fun hid => ?_, fun hid hf => ?_, fun hid hf => ?_⟩ <;>
    cases h : jLookup m.rootObject "Id" <;>
      simp_all [KPluginMetaData.pluginId, idFieldString, h, qToStringD]

/-- Witness for C3 (amended): a non-empty `"Id"` wins over the file path; an
empty-string `"Id"` with no path yields the empty id. -/
theorem pluginId_resolution_order_witness :
    (ofJsonObject [("KPlugin", JVal.obj [("Id", JVal.str "foo")])] "/a/b/x.so").pluginId = "foo"
      ∧ (ofJsonObject [("KPlugin", JVal.obj [("Id", JVal.str "")])] "").pluginId = "" :=
  ⟨(pluginId_resolution_order
      (ofJsonObject [("KPlugin", JVal.obj [("Id", JVal.str "foo")])] "/a/b/x.so")).1
        (by decide),
    (pluginId_resolution_order
      (ofJsonObject [("KPlugin", JVal.obj [("Id", JVal.str "")])] "")).2.2 rfl rfl⟩

/-- Counterexample to C4: a descriptor whose key `"X"` lives only inside the
nested `"KPlugin"` object. -/
def mdNestedOnly : KPluginMetaData :=
  ofJsonObject [("KPlugin", JVal.obj [("X", JVal.str "inner")])] ""

/-- C4 fails as stated: `"X"` is present in the `"KPlugin"` root object with
value `"inner"`, yet the string `value(key, default)` accessor ignores it and
returns the caller's default — it does not read from the root object. -/
theorem value_root_object_counterexample :
    jLookup mdNestedOnly.rootObject "X" = some (JVal.str "inner")
      ∧ mdNestedOnly.valueString "X" "fallback" = "fallback"
      ∧ ("fallback" : String) ≠ "inner" :=
  ⟨rfl, by decide, by decide⟩

/-- C4 amended: every typed `value(key, default)` accessor reads its key from
the top-level metadata JSON object (a string, boolean, number or array stored
at the top level under the key is returned, and an absent top-level key
yields the default in all four overloads). -/
theorem value_reads_toplevel (m : KPluginMetaData) (key : String) :
    (∀ s d, jLookup m.m_metaData key = some (JVal.str s) → m.valueString key d = s) ∧
    (∀ b d, jLookup m.m_metaData key = some (JVal.bool b) → m.valueBool key d = b) ∧
    (∀ n d, jLookup m.m_metaData key = some (JVal.num n) → m.valueInt key d = n) ∧
    (∀ xs d, jLookup m.m_metaData key = some (JVal.arr xs) →
      m.valueStringList key d = xs.map qvariantToString) ∧
    (jLookup m.m_metaData key = none →
      ∀ dS dB dI dL, m.valueString key dS = dS ∧ m.valueBool key dB = dB
        ∧ m.valueInt key dI = dI ∧ m.valueStringList key dL = dL) := by
  refine ⟨fun s d h => ?_, fun b d h => ?_, fun n d h => ?_, fun xs d h => ?_,
    fun h dS dB dI dL => ⟨?_, ?_, ?_, ?_⟩⟩
  · simp [KPluginMetaData.valueString, h, qIsString, qToStringD]
  · simp [KPluginMetaData.valueBool, h, qIsBool, qToBool]
  · simp [KPluginMetaData.valueInt, h, qIsDouble, qToInt]
  · simp [KPluginMetaData.valueStringList, h]
  · simp [KPluginMetaData.valueString, h, qIsString, qIsArray, qIsBool]
  · simp [KPluginMetaData.valueBool, h, qIsBool, qIsString]
  · simp [KPluginMetaData.valueInt, h, qIsDouble, qIsString]
  · simp [KPluginMetaData.valueStringList, h]

/-- Witness for C4 (amended): a top-level string entry is returned by the
string overload. -/
theorem value_reads_toplevel_witness :
    (ofJsonObject [("Y", JVal.str "top")] "").valueString "Y" "d" = "top" :=
  (value_reads_toplevel (ofJsonObject [("Y", JVal.str "top")] "") "Y").1 "top" "d" rfl

/-- C5: `supportsMimeType` holds exactly when the queried type is literally in
the declared MIME type list, or — failing that — when the queried type is
known to the database and inherits from some declared type; in particular a
type unknown to the database and not literally listed is rejected. -/
theorem supportsMimeType_literal_or_inherits (db : QMimeDatabase) (m : KPluginMetaData)
    (t : String) :
    supportsMimeType db m t = true ↔
      (t ∈ m.mimeTypes
        ∨ (db.isValidMime t = true ∧ ∃ s ∈ m.mimeTypes, db.inherits t s = true)) := by
  by_cases hc : t ∈ m.mimeTypes
  · simp [KPluginMetaData.supportsMimeType, hc]
  · by_cases hv : db.isValidMime t = true
    · simp [KPluginMetaData.supportsMimeType, hc, hv, List.any_eq_true]
    · simp [KPluginMetaData.supportsMimeType, hc, hv]

/-- Folding the person-collecting loop body over an array appends, in order,
exactly those array elements that are objects whose parsed name is
non-empty. -/
theorem addPersonsFromArray_eq_filterMap (xs : List JVal) (acc : List KAboutPerson) :
    addPersonsFromArray xs acc = acc ++ xs.filterMap (fun v =>
      match v with
      | JVal.obj o =>
        if (KAboutPerson.fromJSON o).name = "" then none else some (KAboutPerson.fromJSON o)
      | _ => none) := by
  induction xs generalizing acc with
  | nil => simp [addPersonsFromArray]
  | cons v vs ih =>
    cases v with
    | obj o =>
      show addPersonsFromArray vs (addPersonFromJson o acc) = _
      rw [ih]
      by_cases h : (KAboutPerson.fromJSON o).name = "" <;>
        simp [addPersonFromJson, h, String.isEmpty_iff, List.filterMap_cons]
    | null =>
      show addPersonsFromArray vs acc = _
      rw [ih]; simp [List.filterMap_cons]
    | bool b =>
      show addPersonsFromArray vs acc = _
      rw [ih]; simp [List.filterMap_cons]
    | num n =>
      show addPersonsFromArray vs acc = _
      rw [ih]; simp [List.filterMap_cons]
    | str s =>
      show addPersonsFromArray vs acc = _
      rw [ih]; simp [List.filterMap_cons]
    | arr ys =>
      show addPersonsFromArray vs acc = _
      rw [ih]; simp [List.filterMap_cons]

/-- C9: `authors()`, `translators()` and `otherContributors()` all parse their
key through `aboutPersonFromJSON`, which accepts a single object (kept unless
its name is empty) or an array (non-object elements skipped, empty-named
records omitted, order preserved) and returns the empty list for every other
JSON value. -/
theorem aboutPersons_spec :
    (∀ o, aboutPersonFromJSON (some (JVal.obj o)) =
        if (KAboutPerson.fromJSON o).name = "" then [] else [KAboutPerson.fromJSON o]) ∧
    (∀ xs, aboutPersonFromJSON (some (JVal.arr xs)) = xs.filterMap (fun v =>
        match v with
        | JVal.obj o =>
          if (KAboutPerson.fromJSON o).name = "" then none else some (KAboutPerson.fromJSON o)
        | _ => none)) ∧
    aboutPersonFromJSON none = [] ∧
    aboutPersonFromJSON (some JVal.null) = [] ∧
    (∀ b, aboutPersonFromJSON (some (JVal.bool b)) = []) ∧
    (∀ n, aboutPersonFromJSON (some (JVal.num n)) = []) ∧
    (∀ s, aboutPersonFromJSON (some (JVal.str s)) = []) ∧
    (∀ m : KPluginMetaData,
      m.authors = aboutPersonFromJSON (jLookup m.rootObject "Authors")
        ∧ m.translators = aboutPersonFromJSON (jLookup m.rootObject "Translators")
        ∧ m.otherContributors = aboutPersonFromJSON (jLookup m.rootObject "OtherContributors")) := by
  refine ⟨fun o => ?_, fun xs => ?_, rfl, rfl, fun b => rfl, fun n => rfl, fun s => rfl,
    fun m => ⟨rfl, rfl, rfl⟩⟩
  · by_cases h : (KAboutPerson.fromJSON o).name = "" <;>
      simp [aboutPersonFromJSON, addPersonFromJson, h, String.isEmpty_iff]
  · show addPersonsFromArray xs [] = _
    rw [addPersonsFromArray_eq_filterMap]; simp

/-- Every entry produced by the disk-scan loop carries an identifier that was
not in the already-seen set the loop started from. -/
theorem findPluginsDiskGo_mem_not_seen (env : DiskEnv)
    (filter : Option (KPluginMetaData → Bool)) (opt : KPluginMetaDataOption) :
    ∀ (files : List String) (seen : List String) (m : KPluginMetaData),
      m ∈ findPluginsDiskGo env filter opt seen files → m.pluginId ∉ seen := by
  intro files
  induction files with
  | nil => intro seen m hm; simp [findPluginsDiskGo] at hm
  | cons f fs ih =>
    intro seen m hm
    simp only [findPluginsDiskGo] at hm
    by_cases h1 : (!(KPluginMetaData.ofPluginFile env f opt).isValid) = true
    · rw [if_pos h1] at hm; exact ih seen m hm
    · rw [if_neg h1] at hm
      by_cases h2 : List.contains seen (KPluginMetaData.ofPluginFile env f opt).pluginId = true
      · rw [if_pos h2] at hm; exact ih seen m hm
      · rw [if_neg h2] at hm
        by_cases h3 : (!passesFilter filter (KPluginMetaData.ofPluginFile env f opt)) = true
        · rw [if_pos h3] at hm; exact ih seen m hm
        · rw [if_neg h3] at hm
          rcases List.mem_cons.mp hm with rfl | hm2
          · intro hs
            exact h2 (by simpa using hs)
          · intro hs
            exact (ih _ m hm2) (List.mem_cons_of_mem _ hs)

/-- The disk-scan loop never emits two entries with the same identifier. -/
theorem findPluginsDiskGo_pairwise (env : DiskEnv)
    (filter : Option (KPluginMetaData → Bool)) (opt : KPluginMetaDataOption) :
    ∀ (files : List String) (seen : List String),
      (findPluginsDiskGo env filter opt seen files).Pairwise
        (fun x y => x.pluginId ≠ y.pluginId) := by
  intro files
  induction files with
  | nil => intro seen; simp [findPluginsDiskGo]
  | cons f fs ih =>
    intro seen
    simp only [findPluginsDiskGo]
    by_cases h1 : (!(KPluginMetaData.ofPluginFile env f opt).isValid) = true
    · rw [if_pos h1]; exact ih seen
    · rw [if_neg h1]
      by_cases h2 : List.contains seen (KPluginMetaData.ofPluginFile env f opt).pluginId = true
      · rw [if_pos h2]; exact ih seen
      · rw [if_neg h2]
        by_cases h3 : (!passesFilter filter (KPluginMetaData.ofPluginFile env f opt)) = true
        · rw [if_pos h3]; exact ih seen
        · rw [if_neg h3]
          refine List.Pairwise.cons (fun y hy => ?_) (ih _)
          have hns := findPluginsDiskGo_mem_not_seen env filter opt fs
            ((KPluginMetaData.ofPluginFile env f opt).pluginId :: seen) y hy
          intro he
          exact hns (he ▸ List.mem_cons_self _ _)

/-- A statically-registered plugin whose metadata declares the identifier
`"a"`. -/
def spDup : QStaticPlugin :=
  ⟨[("MetaData", JVal.obj [("KPlugin", JVal.obj [("Id", JVal.str "a")])])]⟩

/-- A one-file plugin directory whose single loadable module also declares the
identifier `"a"`. -/
def envDup : DiskEnv :=
  { pluginFiles := ["/plugins/a.so"]
  , loaderFileName := fun s => s
  , loaderMetaData := fun s =>
      if s = "/plugins/a.so"
      then [("MetaData", JVal.obj [("KPlugin", JVal.obj [("Id", JVal.str "a")])])]
      else []
  , absoluteFilePath := fun s => s
  , appDirPath := "/app" }

/-- C1 fails as stated: with a static plugin of identifier `"a"` and a disk
plugin of the same identifier, `findPlugins` (no predicate) returns both —
the static plugin does not exclude the disk-discovered one, so the result
contains two entries with the same plugin identifier. -/
theorem findPlugins_duplicate_id_counterexample :
    (findPlugins [spDup] envDup none KPluginMetaDataOption.DoNotAllowEmptyMetaData).map
        KPluginMetaData.pluginId = ["a", "a"]
      ∧ ¬ ((findPlugins [spDup] envDup none KPluginMetaDataOption.DoNotAllowEmptyMetaData).map
            KPluginMetaData.pluginId).Pairwise (fun x y => x ≠ y) := by
  have e : (findPlugins [spDup] envDup none KPluginMetaDataOption.DoNotAllowEmptyMetaData).map
      KPluginMetaData.pluginId = ["a", "a"] := by decide
  refine ⟨e, fun h => ?_⟩
  rw [e] at h
  exact (List.pairwise_cons.mp h).1 "a" (List.mem_cons_self _ _) rfl

/-- C1 amended: `findPlugins` returns the static-phase entries followed by the
disk-phase entries, and within the disk-discovery phase no two entries share a
plugin identifier (the first occurrence wins); statically-registered plugins
take no part in that deduplication. -/
theorem findPlugins_disk_phase_dedup (statics : List QStaticPlugin) (env : DiskEnv)
    (filter : Option (KPluginMetaData → Bool)) (opt : KPluginMetaDataOption) :
    findPlugins statics env filter opt
        = findPluginsStatic filter opt statics ++ findPluginsDisk env filter opt
      ∧ (findPluginsDisk env filter opt).Pairwise
          (fun x y => x.pluginId ≠ y.pluginId) :=
  ⟨rfl, findPluginsDiskGo_pairwise env filter opt env.pluginFiles []⟩
